import Mathlib

/-!
Verification of the denis DNS resolver against its specification.

The development shallowly embeds the Rust sources:

* `src/data.rs`  — the wire codec (`Message`, `Name`, `parse_labels`, the
  deku-derived readers and writers), modelled at byte level as functions over
  `List Nat` (every field of the wire format is byte aligned except the
  sub-fields of `Flags`, which live inside two fixed bytes and are modelled by
  arithmetic on those two bytes);
* `src/trie.rs`  — the label trie (`Node`, `DnsTrie`);
* `src/db.rs`    — the zone store (`Db`, its `Record` variant) ;
* `src/record.rs` — the richer record variant (`record.Record`);
* `src/server.rs` — the request pipeline (`answer_question`,
  `handle_message`, `handle_request`).

Rust `String`s are modelled by their UTF-8 byte lists, so equality is
byte-exact as in the source.  Fallible decoding returns a `DResult`, whose
`panicked` constructor records the places where the Rust code would panic
(slice indexing out of bounds, `String::from_utf8(..).unwrap()` on
non-UTF-8 label bytes, `Label::new` on an over-long label); `err` records a
recoverable `DekuError`.
-/

namespace Denis

/-- Outcome of a deku-style read: success with the unconsumed tail, a
recoverable `DekuError`, or a Rust panic (out-of-bounds slice indexing or an
explicit `panic!`). -/
inductive DResult (α : Type) : Type where
  | ok (rest : List Nat) (val : α)
  | err
  | panicked
  deriving DecidableEq, Repr

/-- Sequencing of reads: propagate errors and panics, feed the tail onward. -/
def DResult.bind {α β : Type} : DResult α → (List Nat → α → DResult β) → DResult β
  | .ok rest a, f => f rest a
  | .err, _ => .err
  | .panicked, _ => .panicked

/-- `u8::read`: one byte off the front; `DekuError::Incomplete` when empty. -/
def readU8 : List Nat → DResult Nat
  | [] => .err
  | b :: rest => .ok rest b

/-- A big-endian `u16` read: two `u8` reads combined. -/
def readU16 (input : List Nat) : DResult Nat :=
  (readU8 input).bind fun i b0 =>
    (readU8 i).bind fun i b1 =>
      .ok i (b0 * 256 + b1)

/-- A big-endian 32-bit read (the `ttl` field): four `u8` reads combined.  The
field is `i32` in the source; since the program never computes with it, it is
modelled by its 32-bit wire value. -/
def readU32 (input : List Nat) : DResult Nat :=
  (readU8 input).bind fun i b0 =>
    (readU8 i).bind fun i b1 =>
      (readU8 i).bind fun i b2 =>
        (readU8 i).bind fun i b3 =>
          .ok i (b0 * 16777216 + b1 * 65536 + b2 * 256 + b3)

/-- Reading `n` raw bytes via repeated `u8::read` (deku `count = ..` on a
`Vec<u8>`): `DekuError::Incomplete` if the input is shorter. -/
def readBytesErr (n : Nat) (input : List Nat) : DResult (List Nat) :=
  if n ≤ input.length then .ok (input.drop n) (input.take n) else .err

/-- Big-endian bytes of a `u16` value (`as u16` narrowing included). -/
def encU16 (v : Nat) : List Nat := [v / 256 % 256, v % 256]

/-- The single byte written by `u8::write` (with `as u8` narrowing). -/
def encU8 (v : Nat) : List Nat := [v % 256]

/-- Big-endian bytes of the 32-bit `ttl` wire value. -/
def encU32 (v : Nat) : List Nat :=
  [v / 16777216 % 256, v / 65536 % 256, v / 256 % 256, v % 256]

/-- One label of a domain name: the bytes of the Rust `String` inside
`Label`. -/
structure Label where
  data : List Nat
  deriving DecidableEq, Repr

/-- A domain name: its ordered list of labels (`Name` in `data.rs`). -/
structure Name where
  labels : List Label
  deriving DecidableEq, Repr

/-- Split a byte string at every `.` (byte 46), as Rust's
`str::split('.')` does: the empty string yields one empty piece. -/
def splitDots : List Nat → List (List Nat)
  | [] => [[]]
  | b :: rest =>
    match splitDots rest with
    | [] => [[b]]
    | h :: t => if b = 46 then [] :: h :: t else (b :: h) :: t

/-- `Name::new`: split the dotted string into labels.  (`Label::new`'s
length panic cannot fire on the zone names used here.) -/
def Name.new (s : List Nat) : Name :=
  ⟨(splitDots s).map Label.mk⟩

/-- `Name::is_empty`. -/
def Name.is_empty (n : Name) : Bool := n.labels.isEmpty

/-- The bytes of `Name`'s `Display` output (`to_string`): `"."` for the empty
name, otherwise the labels joined by dots. -/
def Name.to_string_bytes (n : Name) : List Nat :=
  match n.labels with
  | [] => [46]
  | l :: ls => ls.foldl (fun acc l' => acc ++ 46 :: l'.data) l.data

/-- `DekuWrite for Name`: each label as a length byte (`len as u8`) followed
by its bytes, terminated by a zero byte.  No compression is emitted. -/
def Name.write (n : Name) : List Nat :=
  (n.labels.flatMap fun l => encU8 l.data.length ++ l.data) ++ [0]

/-- `Name::to_bytes`: the wire encoding of the name. -/
def Name.to_bytes (n : Name) : List Nat := n.write

/-- A UTF-8 continuation byte (`0x80`–`0xBF`). -/
def utf8Cont (b : Nat) : Bool := 128 ≤ b && b ≤ 191

/-- Whether a byte list is valid UTF-8, as `String::from_utf8` checks it:
ASCII, the two- to four-byte sequences with their restricted second bytes
(no overlongs, no surrogates, nothing above `U+10FFFF`). -/
def utf8Valid : List Nat → Bool
  | [] => true
  | b :: rest =>
    if b ≤ 127 then utf8Valid rest
    else if 194 ≤ b ∧ b ≤ 223 then
      match rest with
      | c1 :: rest => utf8Cont c1 && utf8Valid rest
      | _ => false
    else if b = 224 then
      match rest with
      | c1 :: c2 :: rest => (160 ≤ c1 && c1 ≤ 191) && utf8Cont c2 && utf8Valid rest
      | _ => false
    else if (225 ≤ b ∧ b ≤ 236) ∨ b = 238 ∨ b = 239 then
      match rest with
      | c1 :: c2 :: rest => utf8Cont c1 && utf8Cont c2 && utf8Valid rest
      | _ => false
    else if b = 237 then
      match rest with
      | c1 :: c2 :: rest => (128 ≤ c1 && c1 ≤ 159) && utf8Cont c2 && utf8Valid rest
      | _ => false
    else if b = 240 then
      match rest with
      | c1 :: c2 :: c3 :: rest =>
        (144 ≤ c1 && c1 ≤ 191) && utf8Cont c2 && utf8Cont c3 && utf8Valid rest
      | _ => false
    else if 241 ≤ b ∧ b ≤ 243 then
      match rest with
      | c1 :: c2 :: c3 :: rest =>
        utf8Cont c1 && utf8Cont c2 && utf8Cont c3 && utf8Valid rest
      | _ => false
    else if b = 244 then
      match rest with
      | c1 :: c2 :: c3 :: rest =>
        (128 ≤ c1 && c1 ≤ 143) && utf8Cont c2 && utf8Cont c3 && utf8Valid rest
      | _ => false
    else false

/-- The loop of `parse_labels`: read a length byte, stop at zero, otherwise
slice that many bytes as a label.  Slicing past the end of the buffer,
`String::from_utf8(..).unwrap()` on non-UTF-8 label bytes and `Label::new`
on a label longer than 63 bytes are panics in the source, in that order.
The `fuel` argument makes the recursion structural; `parse_labels_loop`
always supplies `input.length`, which suffices because every iteration
consumes at least one byte. -/
def parse_labels_go : Nat → List Label → List Nat → DResult (List Label)
  | _, _, [] => .err
  | 0, _, _ :: _ => .err
  | fuel + 1, acc, len :: rest =>
    if len = 0 then .ok rest acc
    else if len ≤ rest.length then
      if utf8Valid (rest.take len) = false then .panicked
      else if 63 < len then .panicked
      else parse_labels_go fuel (acc ++ [⟨rest.take len⟩]) (rest.drop len)
    else .panicked

/-- The `loop` in `parse_labels`, entered after the first label. -/
def parse_labels_loop (acc : List Label) (input : List Nat) : DResult (List Label) :=
  parse_labels_go input.length acc input

/-- `parse_labels`: the first label's length byte has already been read; slice
its data (panicking when the buffer is shorter), build the label
(`String::from_utf8(..).unwrap()` panics on non-UTF-8 bytes, then
`Label::new` panics above 63 bytes), then run the loop. -/
def parse_labels (input : List Nat) (initial_len : Nat) : DResult (List Label) :=
  if initial_len = 0 then .ok input []
  else if initial_len ≤ input.length then
    if utf8Valid (input.take initial_len) = false then .panicked
    else if 63 < initial_len then .panicked
    else parse_labels_loop [⟨input.take initial_len⟩] (input.drop initial_len)
  else .panicked

/-- `DekuRead for Name`: read a length byte; zero means the root name; if its
top two bits are `11` it is a compression pointer whose offset is computed as
`(len & 0x3f) | next_byte` and resolved against the full message buffer
`ctx` (slicing `ctx` past its end panics), feeding the pointer byte's low six
bits to `parse_labels` as the initial length; otherwise the byte is the first
label's length. -/
def Name.read (input ctx : List Nat) : DResult Name :=
  (readU8 input).bind fun input len =>
    if len = 0 then .ok input ⟨[]⟩
    else if Nat.land len 192 = 192 then
      let len6 := Nat.land len 63
      (readU8 input).bind fun input off =>
        let offset := Nat.lor len6 off
        if offset ≤ ctx.length then
          match parse_labels (ctx.drop offset) len6 with
          | .ok _ labels => .ok input ⟨labels⟩
          | .err => .err
          | .panicked => .panicked
        else .panicked
    else
      match parse_labels input len with
      | .ok rest labels => .ok rest ⟨labels⟩
      | .err => .err
      | .panicked => .panicked

/-- `Opcode`, a 4-bit enum. -/
inductive Opcode : Type where
  | Query | IQuery | Status
  deriving DecidableEq, Repr

/-- Wire value of an `Opcode`. -/
def Opcode.toNat : Opcode → Nat
  | .Query => 0
  | .IQuery => 1
  | .Status => 2

/-- Decode a 4-bit `Opcode` wire value; unknown values are rejected. -/
def Opcode.ofNat? : Nat → Option Opcode
  | 0 => some .Query
  | 1 => some .IQuery
  | 2 => some .Status
  | _ => none

/-- `RCode`, a 4-bit enum. -/
inductive RCode : Type where
  | NoError | FormatError | ServerFailure | NameError | NotImplemented | Refused
  deriving DecidableEq, Repr

/-- Wire value of an `RCode`. -/
def RCode.toNat : RCode → Nat
  | .NoError => 0
  | .FormatError => 1
  | .ServerFailure => 2
  | .NameError => 3
  | .NotImplemented => 4
  | .Refused => 5

/-- Decode a 4-bit `RCode` wire value; unknown values are rejected. -/
def RCode.ofNat? : Nat → Option RCode
  | 0 => some .NoError
  | 1 => some .FormatError
  | 2 => some .ServerFailure
  | 3 => some .NameError
  | 4 => some .NotImplemented
  | 5 => some .Refused
  | _ => none

/-- The bit-packed header `Flags`. `z` is the 3-bit reserved field. -/
structure Flags where
  qr : Bool
  opcode : Opcode
  aa : Bool
  tc : Bool
  rd : Bool
  ra : Bool
  z : Nat
  rcode : RCode
  deriving DecidableEq, Repr

/-- Helper for assembling a flag bit into a byte. -/
def bit (b : Bool) (v : Nat) : Nat := if b then v else 0

/-- The two bytes written for `Flags`: `qr` is bit 7 of the first byte,
`opcode` bits 6–3, `aa`/`tc`/`rd` bits 2–0; `ra` is bit 7 of the second byte,
`z` bits 6–4, `rcode` bits 3–0. -/
def Flags.write (f : Flags) : List Nat :=
  [bit f.qr 128 + f.opcode.toNat * 8 + bit f.aa 4 + bit f.tc 2 + bit f.rd 1,
   bit f.ra 128 + f.z % 8 * 16 + f.rcode.toNat]

/-- Decode `Flags` from its two bytes; an unrecognized opcode or rcode wire
value is a decode failure. -/
def Flags.read2 (b0 b1 : Nat) : Option Flags :=
  match Opcode.ofNat? (b0 / 8 % 16), RCode.ofNat? (b1 % 16) with
  | some op, some rc =>
    some { qr := b0 / 128 % 2 == 1, opcode := op,
           aa := b0 / 4 % 2 == 1, tc := b0 / 2 % 2 == 1, rd := b0 % 2 == 1,
           ra := b1 / 128 % 2 == 1, z := b1 / 16 % 8, rcode := rc }
  | _, _ => none

/-- `Flags::answer`: fresh response flags with the given opcode. -/
def Flags.answer (op : Opcode) : Flags :=
  { qr := true, opcode := op, aa := true, tc := false, rd := false,
    ra := false, z := 0, rcode := .NoError }

/-- The message `Header`: id, flags and the four section counts. -/
structure Header where
  id : Nat
  flags : Flags
  qdcount : Nat
  ancount : Nat
  nscount : Nat
  arcount : Nat
  deriving DecidableEq, Repr

/-- `DekuWrite` for `Header`: the fields in order, counts as stored. -/
def Header.write (h : Header) : List Nat :=
  encU16 h.id ++ h.flags.write ++ encU16 h.qdcount ++ encU16 h.ancount ++
    encU16 h.nscount ++ encU16 h.arcount

/-- `DekuRead` for `Header`. -/
def Header.read (input : List Nat) : DResult Header :=
  (readU16 input).bind fun i id =>
    (readU8 i).bind fun i b0 =>
      (readU8 i).bind fun i b1 =>
        match Flags.read2 b0 b1 with
        | none => .err
        | some flags =>
          (readU16 i).bind fun i qd =>
            (readU16 i).bind fun i an =>
              (readU16 i).bind fun i ns =>
                (readU16 i).bind fun i ar =>
                  .ok i ⟨id, flags, qd, an, ns, ar⟩

/-- `QType`, a 16-bit enum. -/
inductive QType : Type where
  | A | NS | MD | MF | CNAME | SOA | MB | MG | MR | NULL | WKS | PTR
  | HINFO | MINFO | MX | TXT | AAAA | OPT | SVCB | HTTPS
  | AXFR | MAILB | MAILA | ANY
  deriving DecidableEq, Repr

/-- Wire value of a `QType`. -/
def QType.toNat : QType → Nat
  | .A => 1 | .NS => 2 | .MD => 3 | .MF => 4 | .CNAME => 5 | .SOA => 6
  | .MB => 7 | .MG => 8 | .MR => 9 | .NULL => 10 | .WKS => 11 | .PTR => 12
  | .HINFO => 13 | .MINFO => 14 | .MX => 15 | .TXT => 16 | .AAAA => 28
  | .OPT => 41 | .SVCB => 64 | .HTTPS => 65
  | .AXFR => 252 | .MAILB => 253 | .MAILA => 254 | .ANY => 255

/-- Decode a `QType` wire value; unknown values are rejected. -/
def QType.ofNat? : Nat → Option QType
  | 1 => some .A | 2 => some .NS | 3 => some .MD | 4 => some .MF
  | 5 => some .CNAME | 6 => some .SOA | 7 => some .MB | 8 => some .MG
  | 9 => some .MR | 10 => some .NULL | 11 => some .WKS | 12 => some .PTR
  | 13 => some .HINFO | 14 => some .MINFO | 15 => some .MX | 16 => some .TXT
  | 28 => some .AAAA | 41 => some .OPT | 64 => some .SVCB | 65 => some .HTTPS
  | 252 => some .AXFR | 253 => some .MAILB | 254 => some .MAILA
  | 255 => some .ANY
  | _ => none

/-- `QClass`, a 16-bit enum. -/
inductive QClass : Type where
  | NONE | IN | CS | CH | HS | ANY
  deriving DecidableEq, Repr

/-- Wire value of a `QClass`. -/
def QClass.toNat : QClass → Nat
  | .NONE => 0 | .IN => 1 | .CS => 2 | .CH => 3 | .HS => 4 | .ANY => 255

/-- Decode a `QClass` wire value; unknown values are rejected. -/
def QClass.ofNat? : Nat → Option QClass
  | 0 => some .NONE | 1 => some .IN | 2 => some .CS | 3 => some .CH
  | 4 => some .HS | 255 => some .ANY
  | _ => none

/-- A question section entry. -/
structure Question where
  qname : Name
  qtype : QType
  qclass : QClass
  deriving DecidableEq, Repr

/-- `DekuWrite` for `Question`. -/
def Question.write (q : Question) : List Nat :=
  q.qname.write ++ encU16 q.qtype.toNat ++ encU16 q.qclass.toNat

/-- `DekuRead` for `Question`; `ctx` is the full message buffer threaded
through for name decompression. -/
def Question.read (input ctx : List Nat) : DResult Question :=
  (Name.read input ctx).bind fun i qname =>
    (readU16 i).bind fun i tv =>
      match QType.ofNat? tv with
      | none => .err
      | some qtype =>
        (readU16 i).bind fun i cv =>
          match QClass.ofNat? cv with
          | none => .err
          | some qclass => .ok i ⟨qname, qtype, qclass⟩

/-- A resource record.  `ttl` is modelled by its 32-bit wire value;
`options_code`/`options_length` are present on the wire only for `OPT`
records, and `qclass` is omitted (defaulting to `NONE`) for `OPT`. -/
structure ResourceRecord where
  name : Name
  qtype : QType
  qclass : QClass
  ttl : Nat
  rdlength : Nat
  data : List Nat
  options_code : Option Nat
  options_length : Option Nat
  deriving DecidableEq, Repr

/-- Write of an `Option<u8>` field: `Some` writes the byte, `None` writes
nothing.  deku's `cond` attribute governs reading only, so it plays no role
here. -/
def encOpt (o : Option Nat) : List Nat :=
  match o with
  | some x => encU8 x
  | none => []

/-- `DekuWrite` for `ResourceRecord`: every stored field is written in
order.  deku's `cond` attribute suppresses only the read side, so the stored
`qclass` is written even for `OPT` records (asymmetrically to the reader,
which skips it); `rdlength` is written as stored (the `update` hook
recomputing it from `data.len()` is never invoked by the server); the
`Option` fields write their byte when present and nothing when absent. -/
def ResourceRecord.write (rr : ResourceRecord) : List Nat :=
  rr.name.write ++ encU16 rr.qtype.toNat ++ encU16 rr.qclass.toNat ++
    encU32 rr.ttl ++ encU16 rr.rdlength ++ rr.data ++
    encOpt rr.options_code ++ encOpt rr.options_length

/-- `DekuRead` for `ResourceRecord`. -/
def ResourceRecord.read (input ctx : List Nat) : DResult ResourceRecord :=
  (Name.read input ctx).bind fun i name =>
    (readU16 i).bind fun i tv =>
      match QType.ofNat? tv with
      | none => .err
      | some qtype =>
        (if qtype = .OPT then .ok i QClass.NONE
         else
           (readU16 i).bind fun i cv =>
             match QClass.ofNat? cv with
             | none => .err
             | some qclass => .ok i qclass).bind fun i qclass =>
          (readU32 i).bind fun i ttl =>
            (readU16 i).bind fun i rdlength =>
              (readBytesErr rdlength i).bind fun i data =>
                (if qtype = .OPT then
                   (readU8 i).bind fun i oc => .ok i (some oc)
                 else .ok i none).bind fun i oc =>
                  (if qtype = .OPT then
                     (readU8 i).bind fun i ol => .ok i (some ol)
                   else .ok i none).bind fun i ol =>
                    .ok i ⟨name, qtype, qclass, ttl, rdlength, data, oc, ol⟩

/-- Read `n` consecutive values with reader `f` (deku `count = ..`). -/
def readCount {α : Type} (f : List Nat → DResult α) : Nat → List Nat → DResult (List α)
  | 0, input => .ok input []
  | n + 1, input =>
    (f input).bind fun i a =>
      (readCount f n i).bind fun i as =>
        .ok i (a :: as)

/-- A DNS message: header plus the four record sections. -/
structure Message where
  header : Header
  questions : List Question
  answers : List ResourceRecord
  authorities : List ResourceRecord
  additionals : List ResourceRecord
  deriving DecidableEq, Repr

/-- `Message::to_bytes`: header (counts as stored), then the four sections in
order. -/
def Message.to_bytes (m : Message) : List Nat :=
  m.header.write ++ m.questions.flatMap Question.write ++
    m.answers.flatMap ResourceRecord.write ++
    m.authorities.flatMap ResourceRecord.write ++
    m.additionals.flatMap ResourceRecord.write

/-- `Message::from_bytes`: parse a header, then exactly the declared number
of questions, answers, authorities and additionals; the entire input buffer
is the decompression context. -/
def Message.from_bytes (bytes : List Nat) : DResult Message :=
  (Header.read bytes).bind fun i h =>
    (readCount (Question.read · bytes) h.qdcount i).bind fun i qs =>
      (readCount (ResourceRecord.read · bytes) h.ancount i).bind fun i ans =>
        (readCount (ResourceRecord.read · bytes) h.nscount i).bind fun i aus =>
          (readCount (ResourceRecord.read · bytes) h.arcount i).bind fun i ads =>
            .ok i ⟨h, qs, ans, aus, ads⟩

/-! ## The label trie (`src/trie.rs`) -/

/-- A trie edge key: the distinguished wildcard edge or an exact label (the
bytes of the Rust `String`). -/
inductive Key : Type where
  | Wildcard
  | Label (s : List Nat)
  deriving DecidableEq, Repr

/-- A trie node: a key-indexed map of children (the `BTreeMap`, modelled as
an association list with unique keys) and an optional stored value. -/
inductive Node (V : Type) : Type where
  | mk (children : List (Key × Node V)) (value : Option V)

/-- The children map of a node. -/
def Node.children {V : Type} : Node V → List (Key × Node V)
  | .mk c _ => c

/-- The stored value of a node. -/
def Node.value {V : Type} : Node V → Option V
  | .mk _ v => v

/-- `BTreeMap::get`: the child stored under a key, if any. -/
def Node.find {V : Type} (n : Node V) (k : Key) : Option (Node V) :=
  (n.children.find? fun p => p.1 = k).map Prod.snd

/-- Replace the binding for `k` (or append one), as
`entry(k).or_insert_with(default)` followed by in-place mutation does. -/
def upsert {V : Type} (l : List (Key × Node V)) (k : Key) (c : Node V) :
    List (Key × Node V) :=
  match l with
  | [] => [(k, c)]
  | (k', c') :: rest => if k' = k then (k, c) :: rest else (k', c') :: upsert rest k c

/-- `Node::default`. -/
def Node.empty {V : Type} : Node V := .mk [] none

/-- `Node::insert`: descend (creating nodes) along the keys and store the
value at the terminal node. -/
def Node.insert {V : Type} (n : Node V) (keys : List Key) (v : V) : Node V :=
  match keys with
  | [] => .mk n.children (some v)
  | k :: tail =>
    let child := (n.find k).getD Node.empty
    .mk (upsert n.children k (child.insert tail v)) n.value

/-- `Node::lookup`: at each level prefer the exact child, fall back to the
wildcard child, fail otherwise; at the end return the stored value. -/
def Node.lookup {V : Type} (n : Node V) (keys : List Key) : Option V :=
  match keys with
  | [] => n.value
  | k :: tail =>
    match n.find k with
    | some child => child.lookup tail
    | none =>
      match n.find .Wildcard with
      | some child => child.lookup tail
      | none => none

/-- `DnsTrie`: a wrapper around the root node. -/
structure DnsTrie (V : Type) where
  root : Node V

/-- `DnsTrie::new`. -/
def DnsTrie.new {V : Type} : DnsTrie V := ⟨Node.empty⟩

/-- `DnsTrie::insert`. -/
def DnsTrie.insert {V : Type} (t : DnsTrie V) (keys : List Key) (v : V) : DnsTrie V :=
  ⟨t.root.insert keys v⟩

/-- `DnsTrie::lookup`. -/
def DnsTrie.lookup {V : Type} (t : DnsTrie V) (keys : List Key) : Option V :=
  t.root.lookup keys

/-! ## The zone store (`src/db.rs`) -/

/-- The zone record variant held by the `Db` (defined in `db.rs`): an `A`
record's four address bytes or a `CNAME` target name. -/
inductive Record : Type where
  | A (address : List Nat)
  | CNAME (name : Name)
  deriving DecidableEq, Repr

/-- `Record::qtype`. -/
def Record.qtype : Record → QType
  | .A _ => .A
  | .CNAME _ => .CNAME

/-- `Record::qclass`: always `IN`. -/
def Record.qclass : Record → QClass := fun _ => .IN

/-- `Record::to_bytes` in `db.rs`: the raw address bytes for `A`; for
`CNAME`, the bytes of the name's `Display` string
(`name.to_string().into_bytes()`), not its wire encoding. -/
def Record.to_bytes : Record → List Nat
  | .A address => address
  | .CNAME name => name.to_string_bytes

/-- The zone store: a trie of `Record`s. -/
structure Db where
  trie : DnsTrie Record

/-- `Db::new`. -/
def Db.new : Db := ⟨DnsTrie.new⟩

/-- `Db::insert`: key the trie by the name's labels reversed, turning the
literal label `*` into the wildcard edge. -/
def Db.insert (db : Db) (name : Name) (record : Record) : Db :=
  let key := (name.labels.map fun l =>
    if l.data = [42] then Key.Wildcard else Key.Label l.data).reverse
  ⟨db.trie.insert key record⟩

/-- `Db::lookup`: look the reversed labels up in the trie (queries never use
the wildcard edge directly), then filter by qtype: `ANY` matches anything,
otherwise the stored record's qtype must match exactly. -/
def Db.lookup (db : Db) (name : Name) (qtype : QType) : Option Record :=
  let key := (name.labels.map fun l => Key.Label l.data).reverse
  (db.trie.lookup key).filter fun record =>
    qtype == QType.ANY || record.qtype == qtype

namespace record

/-- The richer record variant of `src/record.rs` (with `TXT`), not used by
the server's `Db`. -/
inductive Record : Type where
  | A (address : List Nat)
  | CNAME (name : Name)
  | TXT (text : List Nat)
  deriving DecidableEq, Repr

/-- `Record::qtype` in `record.rs`. -/
def Record.qtype : Record → QType
  | .A _ => .A
  | .CNAME _ => .CNAME
  | .TXT _ => .TXT

/-- `Record::qclass` in `record.rs`: always `IN`. -/
def Record.qclass : Record → QClass := fun _ => .IN

/-- `Record::to_bytes` in `record.rs`: raw address bytes for `A`; the wire
encoding `name.to_bytes()` for `CNAME`; a length byte followed by the text
for `TXT`. -/
def Record.to_bytes : Record → List Nat
  | .A address => address
  | .CNAME name => name.to_bytes
  | .TXT text => text.length % 256 :: text

end record

/-! ## The request pipeline (`src/server.rs`) -/

/-- `answer_question`: look the question up in the zone store; on a hit,
build a `ResourceRecord` whose rdata is the record's serialized bytes, with
`rdlength` set to its length (`as u16`) and a fixed ttl of 1.  The `Report`
error path of the source is never taken. -/
def answer_question (db : Db) (question : Question) : Option ResourceRecord :=
  (db.lookup question.qname question.qtype).map fun record =>
    let data := record.to_bytes
    { name := question.qname, qtype := record.qtype, qclass := record.qclass,
      ttl := 1, rdlength := data.length % 65536, data := data,
      options_code := none, options_length := none }

/-- `Iterator::collect::<Option<Vec<_>>>`: apply `f` to every element,
yielding the list of results if all succeed and `none` at the first miss. -/
def traverseOption {α β : Type} (f : α → Option β) : List α → Option (List β)
  | [] => some []
  | a :: l =>
    match f a with
    | none => none
    | some b =>
      match traverseOption f l with
      | none => none
      | some bs => some (b :: bs)

/-- `handle_message`: answer every question locally; if any misses, return
`none` (the caller forwards upstream).  On success, build a response whose
header copies the request id, uses `Flags::answer` with the request's
opcode, sets `ancount` to the number of answers (`as u16`) and zeroes the
other counts and sections. -/
def handle_message (db : Db) (message : Message) : Option Message :=
  (traverseOption (answer_question db) message.questions).map fun answers =>
    { header := { id := message.header.id,
                  flags := Flags.answer message.header.flags.opcode,
                  ancount := answers.length % 65536,
                  qdcount := 0, nscount := 0, arcount := 0 },
      questions := [], answers := answers, authorities := [], additionals := [] }

/-- The reply bytes produced by `handle_request` for one datagram, with the
upstream channel modelled by the bytes `upstream` it would return: decode the
request (drop it on failure); if all questions resolve locally, encode the
locally built response; otherwise forward, decode the upstream reply into a
`Message` (drop the request if that fails) and encode that decoded message as
the reply. -/
def handle_request (db : Db) (data upstream : List Nat) : Option (List Nat) :=
  match Message.from_bytes data with
  | .ok _ message =>
    match handle_message db message with
    | some response => some response.to_bytes
    | none =>
      match Message.from_bytes upstream with
      | .ok _ msg => some msg.to_bytes
      | _ => none
  | _ => none

/-! ## Syntactic validity

A `Message` value is syntactically valid when it satisfies the wire-format
invariants of the data model: labels of 1–63 bytes, header counts equal to
the actual section lengths (and representable as `u16`), `rdlength` equal to
the rdata length, `ttl` and `z` within their field widths, and the
`OPT`-dependent fields in their only encodable shape (`qclass = NONE` and
both option bytes present for `OPT`, both absent otherwise). -/

/-- A label of legal wire length and content: 1–63 bytes of UTF-8 text (a
label inside a `Message` value holds a Rust `String`, whose bytes are
always valid UTF-8). -/
def validLabel (l : Label) : Prop :=
  1 ≤ l.data.length ∧ l.data.length ≤ 63 ∧ utf8Valid l.data = true

/-- All labels of the name are of legal length. -/
def validName (n : Name) : Prop := ∀ l ∈ n.labels, validLabel l

/-- An option byte that is present and fits in a `u8`. -/
def validOpt : Option Nat → Prop
  | some a => a < 256
  | none => False

instance : ∀ o : Option Nat, Decidable (validOpt o)
  | some a => inferInstanceAs (Decidable (a < 256))
  | none => inferInstanceAs (Decidable False)

/-- Wire-format invariants of a resource record. -/
def validRR (rr : ResourceRecord) : Prop :=
  validName rr.name ∧ rr.rdlength = rr.data.length ∧ rr.data.length < 65536 ∧
  rr.ttl < 4294967296 ∧
  (if rr.qtype = QType.OPT then
    rr.qclass = QClass.NONE ∧ validOpt rr.options_code ∧ validOpt rr.options_length
  else rr.options_code = none ∧ rr.options_length = none)

/-- Wire-format invariants of a whole message, with the header counts
normalized to the actual section lengths. -/
def validMessage (m : Message) : Prop :=
  m.header.id < 65536 ∧ m.header.flags.z < 8 ∧
  m.header.qdcount = m.questions.length ∧
  m.header.ancount = m.answers.length ∧
  m.header.nscount = m.authorities.length ∧
  m.header.arcount = m.additionals.length ∧
  m.questions.length < 65536 ∧ m.answers.length < 65536 ∧
  m.authorities.length < 65536 ∧ m.additionals.length < 65536 ∧
  (∀ q ∈ m.questions, validName q.qname) ∧
  (∀ rr ∈ m.answers, validRR rr) ∧
  (∀ rr ∈ m.authorities, validRR rr) ∧
  (∀ rr ∈ m.additionals, validRR rr)

instance (l : Label) : Decidable (validLabel l) := by
  unfold validLabel
  infer_instance

instance (n : Name) : Decidable (validName n) := by
  unfold validName
  infer_instance

instance (rr : ResourceRecord) : Decidable (validRR rr) := by
  unfold validRR
  infer_instance

instance (m : Message) : Decidable (validMessage m) := by
  unfold validMessage
  infer_instance

/-- No resource record of the message is an `OPT` record.  Such messages
are the ones whose encoding the asymmetric `qclass` handling (written
always, read only for non-`OPT`) leaves decodable. -/
def noOptRecords (m : Message) : Prop :=
  (∀ rr ∈ m.answers, rr.qtype ≠ QType.OPT) ∧
  (∀ rr ∈ m.authorities, rr.qtype ≠ QType.OPT) ∧
  (∀ rr ∈ m.additionals, rr.qtype ≠ QType.OPT)

instance (m : Message) : Decidable (noOptRecords m) := by
  unfold noOptRecords
  infer_instance

/-! ## Concrete inputs used by the claim theorems -/

/-- A 12-byte request header with one question and all flag bits zero. -/
def hdr1q : List Nat := [0, 0, 0, 0, 0, 1, 0, 0, 0, 0, 0, 0]

/-- A message whose single question name starts with the non-pointer length
byte 64, followed by 64 bytes of label data: `Label::new` panics on it. -/
def c1bytes : List Nat := hdr1q ++ 64 :: (List.replicate 64 97 ++ [0, 0, 1, 0, 1])

/-- A 7-byte buffer holding the name `foo` at offset 0 and, at offset 5, a
compression pointer `0xC0 0x00` whose target is offset 0. -/
def c2ctx : List Nat := [3, 102, 111, 111, 0, 192, 0]

/-- A message whose question name is the pointer `0xC0 0x64`: target offset
100 is outside the 18-byte buffer. -/
def c3out : List Nat := hdr1q ++ [192, 100] ++ [0, 1, 0, 1]

/-- A message whose question name is the pointer `0xC0 0x10`: target offset
16 lies inside the buffer but at/after the pointer's own position 12. -/
def c3fwd : List Nat := hdr1q ++ [192, 16] ++ [0, 1, 0, 1]

/-- The message `c3fwd` decodes to: the forward pointer is accepted and
resolves to the root name. -/
def c3fwdMsg : Message :=
  { header := ⟨0, ⟨false, .Query, false, false, false, false, 0, .NoError⟩, 1, 0, 0, 0⟩
    questions := [⟨⟨[]⟩, .A, .IN⟩]
    answers := []
    authorities := []
    additionals := [] }

/-- A request: an `A` query for the name `foo`. -/
def c4req : List Nat := hdr1q ++ [3, 102, 111, 111, 0] ++ [0, 1, 0, 1]

/-- The request `c4req` decoded. -/
def c4reqMsg : Message :=
  { header := ⟨0, ⟨false, .Query, false, false, false, false, 0, .NoError⟩, 1, 0, 0, 0⟩
    questions := [⟨⟨[⟨[102, 111, 111]⟩]⟩, .A, .IN⟩]
    answers := []
    authorities := []
    additionals := [] }

/-- An 18-byte upstream reply whose question name is the compression pointer
`0xC0 0x00`. -/
def c4up : List Nat := hdr1q ++ [192, 0] ++ [0, 1, 0, 1]

/-- The upstream reply `c4up` decoded: the pointer collapses to the root
name. -/
def c4upMsg : Message :=
  { header := ⟨0, ⟨false, .Query, false, false, false, false, 0, .NoError⟩, 1, 0, 0, 0⟩
    questions := [⟨⟨[]⟩, .A, .IN⟩]
    answers := []
    authorities := []
    additionals := [] }

/-- Re-encoding `c4upMsg` yields 17 bytes: the two-byte pointer became the
one-byte root name. -/
def c4reply : List Nat := hdr1q ++ [0] ++ [0, 1, 0, 1]

/-- A message value whose stored `qdcount` is 5 with no questions, and whose
single answer stores `rdlength` 7 over 3 bytes of rdata. -/
def c5msg : Message :=
  { header := ⟨256, ⟨false, .Query, false, false, false, false, 0, .NoError⟩, 5, 9, 0, 0⟩
    questions := []
    answers := [⟨⟨[]⟩, .A, .IN, 1, 7, [1, 2, 3], none, none⟩]
    authorities := []
    additionals := [] }

/-- ASCII bytes of `foo.dev`. -/
def fooDev : List Nat := [102, 111, 111, 46, 100, 101, 118]

/-- A syntactically valid message exercising every section and both record
shapes: set flag bits, a nonzero `z`, an answer with rdata and an `OPT`
additional. -/
def c6msg : Message :=
  { header := ⟨513, ⟨true, .IQuery, true, false, true, true, 5, .Refused⟩, 1, 1, 0, 1⟩
    questions := [⟨Name.new fooDev, .ANY, .IN⟩]
    answers := [⟨Name.new fooDev, .A, .IN, 300, 4, [127, 0, 0, 1], none, none⟩]
    authorities := []
    additionals := [⟨⟨[]⟩, .OPT, .NONE, 33554432, 0, [], some 3, some 9⟩] }

/-- What `c6msg` actually decodes back to: the two `qclass` bytes written
for the `OPT` additional are re-read as the high half of `ttl` (512 instead
of 33554432) and shift the option bytes to 0/0, leaving the real option
bytes `[3, 9]` unconsumed. -/
def c6mangled : Message :=
  { header := ⟨513, ⟨true, .IQuery, true, false, true, true, 5, .Refused⟩, 1, 1, 0, 1⟩
    questions := [⟨Name.new fooDev, .ANY, .IN⟩]
    answers := [⟨Name.new fooDev, .A, .IN, 300, 4, [127, 0, 0, 1], none, none⟩]
    authorities := []
    additionals := [⟨⟨[]⟩, .OPT, .NONE, 512, 0, [], some 0, some 0⟩] }

/-- A syntactically valid message without `OPT` records, exercising every
other section and field: set flag bits, a nonzero `z`, an answer with rdata
and a `TXT` authority. -/
def c6ok : Message :=
  { header := ⟨513, ⟨true, .IQuery, true, false, true, true, 5, .Refused⟩, 1, 1, 1, 0⟩
    questions := [⟨Name.new fooDev, .ANY, .IN⟩]
    answers := [⟨Name.new fooDev, .A, .IN, 300, 4, [127, 0, 0, 1], none, none⟩]
    authorities := [⟨⟨[]⟩, .TXT, .CH, 4294967295, 2, [5, 104], none, none⟩]
    additionals := [] }

/-- ASCII bytes of `example.com`. -/
def exampleCom : List Nat := [101, 120, 97, 109, 112, 108, 101, 46, 99, 111, 109]

/-- ASCII bytes of `www.example.com`. -/
def wwwExampleCom : List Nat :=
  [119, 119, 119, 46, 101, 120, 97, 109, 112, 108, 101, 46, 99, 111, 109]

/-- The wire encoding of the name `www.example.com`: length-prefixed labels
ending in a zero byte. -/
def wwwWire : List Nat :=
  [3, 119, 119, 119, 7, 101, 120, 97, 109, 112, 108, 101, 3, 99, 111, 109, 0]

/-- A zone holding `example.com CNAME www.example.com`. -/
def db7 : Db := Db.new.insert (Name.new exampleCom) (Record.CNAME (Name.new wwwExampleCom))

/-- ASCII bytes of `*.local.dev`. -/
def starLocalDev : List Nat := [42, 46, 108, 111, 99, 97, 108, 46, 100, 101, 118]

/-- ASCII bytes of `denis.local.dev`. -/
def denisLocalDev : List Nat :=
  [100, 101, 110, 105, 115, 46, 108, 111, 99, 97, 108, 46, 100, 101, 118]

/-- ASCII bytes of `local.dev`. -/
def localDev : List Nat := [108, 111, 99, 97, 108, 46, 100, 101, 118]

/-- ASCII bytes of `a.b.local.dev`. -/
def abLocalDev : List Nat := [97, 46, 98, 46, 108, 111, 99, 97, 108, 46, 100, 101, 118]

/-- A zone holding `*.local.dev A 127.0.0.1`. -/
def db8 : Db := Db.new.insert (Name.new starLocalDev) (Record.A [127, 0, 0, 1])

/-- ASCII bytes of `x.denis.local.dev`. -/
def xDenisLocalDev : List Nat :=
  [120, 46, 100, 101, 110, 105, 115, 46, 108, 111, 99, 97, 108, 46, 100, 101, 118]

/-- The wildcard zone of `db8` plus a literal entry `x.denis.local.dev`,
whose insertion creates a valueless exact `denis` edge next to the wildcard
edge. -/
def db10 : Db := db8.insert (Name.new xDenisLocalDev) (Record.A [10, 0, 0, 1])

/-- A zone holding `foo.dev A 1.2.3.4`. -/
def db9 : Db := Db.new.insert (Name.new fooDev) (Record.A [1, 2, 3, 4])

/-- A request with a single `A` question for `foo.dev`. -/
def m9 : Message :=
  { header := ⟨7, ⟨false, .Query, false, false, true, false, 0, .NoError⟩, 1, 0, 0, 0⟩
    questions := [⟨Name.new fooDev, .A, .IN⟩]
    answers := []
    authorities := []
    additionals := [] }

/-- The response `handle_message` builds for `m9` over `db9`. -/
def resp9 : Message :=
  { header := ⟨7, ⟨true, .Query, true, false, false, false, 0, .NoError⟩, 0, 1, 0, 0⟩
    questions := []
    answers := [⟨Name.new fooDev, .A, .IN, 1, 4, [1, 2, 3, 4], none, none⟩]
    authorities := []
    additionals := [] }

/-! ## Shared lemmas -/

/-- A byte below 64 never passes the compression-pointer test. -/
theorem land192_small : ∀ x, x < 64 → Nat.land x 192 ≠ 192 := by decide

/-- Reading back a big-endian `u16` written from a value below `2^16`. -/
theorem readU16_enc {v : Nat} (hv : v < 65536) (rest : List Nat) :
    readU16 (encU16 v ++ rest) = .ok rest v := by
  simp only [encU16, List.cons_append, List.nil_append, readU16, readU8, DResult.bind]
  congr 1
  omega

/-- Reading back a big-endian 32-bit field written from a value below
`2^32`. -/
theorem readU32_enc {v : Nat} (hv : v < 4294967296) (rest : List Nat) :
    readU32 (encU32 v ++ rest) = .ok rest v := by
  simp only [encU32, List.cons_append, List.nil_append, readU32, readU8, DResult.bind]
  congr 1
  omega

/-- Field extraction from the first flags byte. -/
theorem flags_byte0_parts (qr aa tc rd : Bool) (op : Nat) (hop : op < 16) :
    (bit qr 128 + op * 8 + bit aa 4 + bit tc 2 + bit rd 1) % 2 = bit rd 1 ∧
    (bit qr 128 + op * 8 + bit aa 4 + bit tc 2 + bit rd 1) / 2 % 2 = bit tc 1 ∧
    (bit qr 128 + op * 8 + bit aa 4 + bit tc 2 + bit rd 1) / 4 % 2 = bit aa 1 ∧
    (bit qr 128 + op * 8 + bit aa 4 + bit tc 2 + bit rd 1) / 8 % 16 = op ∧
    (bit qr 128 + op * 8 + bit aa 4 + bit tc 2 + bit rd 1) / 128 % 2 = bit qr 1 := by
  cases qr <;> cases aa <;> cases tc <;> cases rd <;> simp [bit] <;> omega

/-- Field extraction from the second flags byte. -/
theorem flags_byte1_parts (ra : Bool) (z rc : Nat) (hz : z < 8) (hrc : rc < 16) :
    (bit ra 128 + z * 16 + rc) % 16 = rc ∧
    (bit ra 128 + z * 16 + rc) / 16 % 8 = z ∧
    (bit ra 128 + z * 16 + rc) / 128 % 2 = bit ra 1 := by
  cases ra <;> simp [bit] <;> omega

/-- Decoding an opcode wire value produced by encoding. -/
theorem opcode_of_to (op : Opcode) : Opcode.ofNat? op.toNat = some op := by
  cases op <;> rfl

/-- Decoding an rcode wire value produced by encoding. -/
theorem rcode_of_to (rc : RCode) : RCode.ofNat? rc.toNat = some rc := by
  cases rc <;> rfl

/-- Decoding a qtype wire value produced by encoding. -/
theorem qtype_of_to (t : QType) : QType.ofNat? t.toNat = some t := by
  cases t <;> rfl

/-- Decoding a qclass wire value produced by encoding. -/
theorem qclass_of_to (c : QClass) : QClass.ofNat? c.toNat = some c := by
  cases c <;> rfl

/-- Opcode wire values fit in four bits. -/
theorem opcode_toNat_lt (op : Opcode) : op.toNat < 16 := by cases op <;> decide

/-- RCode wire values fit in four bits. -/
theorem rcode_toNat_lt (rc : RCode) : rc.toNat < 16 := by cases rc <;> decide

/-- QType wire values fit in sixteen bits. -/
theorem qtype_toNat_lt (t : QType) : t.toNat < 65536 := by cases t <;> decide

/-- QClass wire values fit in sixteen bits. -/
theorem qclass_toNat_lt (c : QClass) : c.toNat < 65536 := by cases c <;> decide

/-- Reading back the two flag bytes written for `f` recovers `f` whenever
its reserved field fits in three bits. -/
theorem flags_read2_write (f : Flags) (hz : f.z < 8) :
    Flags.read2 (bit f.qr 128 + f.opcode.toNat * 8 + bit f.aa 4 + bit f.tc 2 + bit f.rd 1)
      (bit f.ra 128 + f.z % 8 * 16 + f.rcode.toNat) = some f := by
  obtain ⟨qr, op, aa, tc, rd, ra, z, rc⟩ := f
  simp only at hz
  rw [Nat.mod_eq_of_lt hz]
  obtain ⟨p0, p1, p2, p3, p4⟩ := flags_byte0_parts qr aa tc rd op.toNat (opcode_toNat_lt op)
  obtain ⟨q0, q1, q2⟩ := flags_byte1_parts ra z rc.toNat hz (rcode_toNat_lt rc)
  simp only [Flags.read2, p0, p1, p2, p3, p4, q0, q1, q2, opcode_of_to, rcode_of_to]
  cases qr <;> cases aa <;> cases tc <;> cases rd <;> cases ra <;> rfl

/-- The label loop accepts the encoding of any sequence of well-sized labels
followed by the zero terminator, appending the labels to the accumulator and
leaving the trailing bytes unread. -/
theorem parse_labels_go_enc (ls : List Label) (hval : ∀ l ∈ ls, validLabel l) :
    ∀ (acc : List Label) (rest : List Nat) (fuel : Nat),
      ((ls.flatMap fun l => l.data.length % 256 :: l.data) ++ 0 :: rest).length ≤ fuel →
      parse_labels_go fuel acc ((ls.flatMap fun l => l.data.length % 256 :: l.data) ++ 0 :: rest)
        = .ok rest (acc ++ ls) := by
  induction ls with
  | nil =>
    intro acc rest fuel hfuel
    simp only [List.flatMap_nil, List.nil_append, List.length_cons] at hfuel ⊢
    cases fuel with
    | zero => omega
    | succ f => simp [parse_labels_go]
  | cons l ls ih =>
    intro acc rest fuel hfuel
    obtain ⟨h1, h63, hutf⟩ := hval l (by simp)
    obtain ⟨d⟩ := l
    simp only at h1 h63 hutf
    have hlen : d.length % 256 = d.length := Nat.mod_eq_of_lt (by omega)
    simp only [List.flatMap_cons, encU8, hlen, List.cons_append, List.nil_append,
      List.append_assoc, List.length_cons, List.length_append] at hfuel ⊢
    cases fuel with
    | zero => omega
    | succ f =>
      rw [parse_labels_go]
      rw [if_neg (by omega)]
      rw [if_pos (by simp only [List.length_append, List.length_cons]; omega)]
      rw [if_neg (by rw [List.take_left]; simp [hutf])]
      rw [if_neg (by omega)]
      rw [List.take_left, List.drop_left]
      rw [ih (fun x hx => hval x (by simp [hx])) (acc ++ [Label.mk d]) rest f
        (by simp only [List.length_append, List.length_cons]; omega)]
      simp

/-- Decoding the literal wire encoding of a name with well-sized labels
returns the name, independently of the decompression context. -/
theorem name_write_read (n : Name) (hval : validName n) (rest ctx : List Nat) :
    Name.read (n.write ++ rest) ctx = .ok rest n := by
  obtain ⟨ls⟩ := n
  cases ls with
  | nil => simp [Name.write, Name.read, readU8, DResult.bind]
  | cons l ls =>
    obtain ⟨h1, h63, hutf⟩ := hval l (by simp)
    obtain ⟨d⟩ := l
    simp only at h1 h63 hutf
    have hlen : d.length % 256 = d.length := Nat.mod_eq_of_lt (by omega)
    simp only [Name.write, List.flatMap_cons, encU8, hlen, List.cons_append,
      List.append_assoc, List.nil_append]
    simp only [Name.read, readU8, DResult.bind]
    rw [if_neg (by omega), if_neg (land192_small d.length (by omega))]
    rw [parse_labels]
    rw [if_neg (by omega)]
    rw [if_pos (by simp only [List.length_append]; omega)]
    rw [if_neg (by rw [List.take_left]; simp [hutf])]
    rw [if_neg (by omega)]
    rw [List.take_left, List.drop_left]
    rw [parse_labels_loop,
      parse_labels_go_enc ls (fun x hx => hval x (by simp [hx])) [⟨d⟩] rest _ le_rfl]
    simp

/-- Decoding the encoding of a question with a well-sized name returns the
question. -/
theorem question_write_read (q : Question) (hval : validName q.qname) (rest ctx : List Nat) :
    Question.read (q.write ++ rest) ctx = .ok rest q := by
  obtain ⟨qn, qt, qc⟩ := q
  simp only [Question.write, List.append_assoc, Question.read]
  simp [name_write_read qn hval, DResult.bind, readU16_enc (qtype_toNat_lt qt),
    qtype_of_to, readU16_enc (qclass_toNat_lt qc), qclass_of_to]

/-- Reading back `n` raw bytes laid down in front of a tail. -/
theorem readBytesErr_append (data rest : List Nat) :
    readBytesErr data.length (data ++ rest) = .ok rest data := by
  rw [readBytesErr, if_pos (by simp), List.take_left, List.drop_left]

/-- Decoding the encoding of a valid non-`OPT` resource record returns the
record.  (`OPT` records do not round-trip: the writer emits the stored
`qclass` while the reader skips it.) -/
theorem rr_write_read (rr : ResourceRecord) (hval : validRR rr)
    (hopt : rr.qtype ≠ QType.OPT) (rest ctx : List Nat) :
    ResourceRecord.read (rr.write ++ rest) ctx = .ok rest rr := by
  obtain ⟨nm, qt, qc, ttl, rdl, data, oc, ol⟩ := rr
  obtain ⟨hname, hrdl, hdlen, httl, hoptv⟩ := hval
  simp only at hname hrdl hdlen httl hoptv hopt
  rw [if_neg hopt] at hoptv
  obtain ⟨rfl, rfl⟩ := hoptv
  subst hrdl
  simp [ResourceRecord.write, ResourceRecord.read, encOpt, List.append_assoc,
    if_neg hopt, name_write_read nm hname, DResult.bind, readU16_enc (qtype_toNat_lt qt),
    qtype_of_to, readU16_enc (qclass_toNat_lt qc), qclass_of_to, readU32_enc httl,
    readU16_enc hdlen, readBytesErr_append]

/-- Decoding `l.length` consecutive encoded values returns exactly `l`,
given a round-trip lemma for each element. -/
theorem readCount_enc {α : Type} (f : List Nat → DResult α) (enc : α → List Nat)
    (l : List α) (hl : ∀ x ∈ l, ∀ r, f (enc x ++ r) = .ok r x) (rest : List Nat) :
    readCount f l.length (l.flatMap enc ++ rest) = .ok rest l := by
  induction l with
  | nil => simp [readCount]
  | cons x l ih =>
    simp only [List.flatMap_cons, List.append_assoc, List.length_cons, readCount]
    rw [hl x (by simp)]
    simp only [DResult.bind]
    rw [ih (fun y hy r => hl y (by simp [hy]) r)]

/-- Decoding the encoding of a header whose fields fit their wire widths
returns the header. -/
theorem header_write_read (h : Header) (hid : h.id < 65536) (hz : h.flags.z < 8)
    (hqd : h.qdcount < 65536) (han : h.ancount < 65536) (hns : h.nscount < 65536)
    (har : h.arcount < 65536) (rest : List Nat) :
    Header.read (h.write ++ rest) = .ok rest h := by
  obtain ⟨id, flags, qd, an, ns, ar⟩ := h
  simp only at hid hz hqd han hns har
  simp only [Header.write, Flags.write, List.append_assoc, List.cons_append,
    List.nil_append, Header.read]
  rw [readU16_enc hid]
  simp only [DResult.bind, readU8]
  rw [flags_read2_write flags hz]
  rw [readU16_enc hqd]
  simp only [DResult.bind]
  rw [readU16_enc han]
  simp only [DResult.bind]
  rw [readU16_enc hns]
  simp only [DResult.bind]
  rw [readU16_enc har]

/-- Collecting options succeeds with one output per input. -/
theorem traverseOption_length {α β : Type} (f : α → Option β) :
    ∀ (l : List α) (res : List β), traverseOption f l = some res → res.length = l.length := by
  intro l
  induction l with
  | nil =>
    intro res h
    simp only [traverseOption, Option.some.injEq] at h
    subst h
    rfl
  | cons a l ih =>
    intro res h
    simp only [traverseOption] at h
    cases hfa : f a with
    | none => rw [hfa] at h; exact absurd h (by simp)
    | some b =>
      rw [hfa] at h
      cases htl : traverseOption f l with
      | none => rw [htl] at h; exact absurd h (by simp)
      | some bs =>
        rw [htl] at h
        simp only [Option.some.injEq] at h
        subst h
        simp [ih bs htl]

/-- Every collected output comes from some input element. -/
theorem traverseOption_mem {α β : Type} (f : α → Option β) :
    ∀ (l : List α) (res : List β), traverseOption f l = some res →
      ∀ b ∈ res, ∃ a ∈ l, f a = some b := by
  intro l
  induction l with
  | nil =>
    intro res h
    simp only [traverseOption, Option.some.injEq] at h
    subst h
    simp
  | cons a l ih =>
    intro res h
    simp only [traverseOption] at h
    cases hfa : f a with
    | none => rw [hfa] at h; exact absurd h (by simp)
    | some b =>
      rw [hfa] at h
      cases htl : traverseOption f l with
      | none => rw [htl] at h; exact absurd h (by simp)
      | some bs =>
        rw [htl] at h
        simp only [Option.some.injEq] at h
        subst h
        intro x hx
        rcases List.mem_cons.mp hx with hxb | hxs
        · exact ⟨a, by simp, by rw [hfa, hxb]⟩
        · obtain ⟨a', ha', hfa'⟩ := ih bs htl x hxs
          exact ⟨a', by simp [ha'], hfa'⟩

/-- Any record produced by `answer_question` stores its rdata length (as
`u16`) in `rdlength`. -/
theorem answer_question_rdlength (db : Db) (q : Question) (rr : ResourceRecord)
    (h : answer_question db q = some rr) : rr.rdlength = rr.data.length % 65536 := by
  simp only [answer_question] at h
  cases hl : db.lookup q.qname q.qtype with
  | none => rw [hl] at h; exact absurd h (by simp)
  | some record =>
    rw [hl] at h
    simp only [Option.map_some', Option.some.injEq] at h
    subst h
    rfl

/-! ## The claims -/

/-- C1: message decoding is claimed total — returning a decoded `Message` or
a recoverable `DecodeError`, never panicking — but on a question whose name
carries the non-pointer length byte 64 followed by 64 bytes of label data,
`Label::new` panics with `Label too long` instead of returning an error. -/
theorem c1_decode_panics_on_long_label :
    Message.from_bytes c1bytes = .panicked := by decide

/-- C2: on a length byte with top bits `11`, the decoded outer name is
claimed to equal the name decoded at the backward offset in the full buffer;
in `c2ctx` the pointer `0xC0 0x00` at position 5 targets offset 0, where the
name `foo` lives, yet the outer name decodes to the root name, because the
code hands `parse_labels` the pointer's low six bits as the initial label
length instead of decoding a name at the target. -/
theorem c2_pointer_resolution_mismatch :
    Name.read (c2ctx.drop 5) c2ctx = .ok [] ⟨[]⟩ ∧
    Name.read c2ctx c2ctx = .ok [192, 0] ⟨[⟨[102, 111, 111]⟩]⟩ ∧
    (⟨[]⟩ : Name) ≠ ⟨[⟨[102, 111, 111]⟩]⟩ := by decide

/-- C3: decoding is claimed to fail with `BadPointer` on a pointer whose
target is out of range or not strictly backward; in fact no such check
exists: an out-of-range target (`c3out`, offset 100 in an 18-byte buffer)
panics on slice indexing, and a forward target (`c3fwd`, offset 16 from
pointer position 12) is silently followed and decodes successfully. -/
theorem c3_no_bad_pointer_check :
    Message.from_bytes c3out = .panicked ∧
    Message.from_bytes c3fwd = .ok [] c3fwdMsg := by decide

/-- C4 counterexample: with an empty zone, the request `c4req` is forwarded;
the upstream reply `c4up` (whose question name is a compression pointer) is
relayed as `c4reply`, the re-encoding of its decoded form, which differs
from `c4up` byte-for-byte — the claim that the client receives exactly the
upstream bytes is false. -/
theorem c4_counterexample :
    handle_request Db.new c4req c4up = some c4reply ∧ c4reply ≠ c4up := by decide

/-- C4 (amended): when the request decodes and some question has no local
match, the reply sent to the client is the re-encoding of the decoded
upstream reply, `encode (decode upstream)`, not the upstream bytes
themselves. -/
theorem c4_forwarded_reply_reencoded (db : Db) (req up rest rest' : List Nat)
    (m mu : Message) (h1 : Message.from_bytes req = .ok rest m)
    (h2 : handle_message db m = none) (h3 : Message.from_bytes up = .ok rest' mu) :
    handle_request db req up = some mu.to_bytes := by
  simp only [handle_request, h1, h2, h3]

/-- C4 witness: the amended statement at the concrete request `c4req` and
upstream reply `c4up`. -/
theorem c4_forwarded_reply_reencoded_witness :
    handle_request Db.new c4req c4up = some c4upMsg.to_bytes :=
  c4_forwarded_reply_reencoded Db.new c4req c4up [] [] c4reqMsg c4upMsg
    (by decide) (by decide) (by decide)

/-- C5 counterexample: encoding is claimed to write count fields derived
from the actual sequence lengths and `rdlength` from the rdata length,
regardless of the stored values; but encoding `c5msg` (stored `qdcount` 5,
no questions; stored `rdlength` 7 over 3 rdata bytes) writes the bytes
`[0, 5]` for `qdcount` and `[0, 7]` for `rdlength`. -/
theorem c5_counterexample :
    ((Message.to_bytes c5msg).drop 4).take 2 = [0, 5] ∧ c5msg.questions.length = 0 ∧
    ((Message.to_bytes c5msg).drop 21).take 2 = [0, 7] ∧
    (c5msg.answers.map fun rr => rr.data.length) = [3] := by decide

/-- C5 (amended): encoding writes the stored count and `rdlength` fields
verbatim; for every response built by `handle_message` the stored counts
equal the actual section lengths (so the written count bytes reflect them),
and every answer's `rdlength` equals its rdata length as a `u16`. -/
theorem c5_server_counts_match (db : Db) (m resp : Message)
    (h : handle_message db m = some resp) (hq : m.questions.length < 65536) :
    ((resp.to_bytes.drop 4).take 8 =
      encU16 resp.questions.length ++ encU16 resp.answers.length ++
        encU16 resp.authorities.length ++ encU16 resp.additionals.length) ∧
    ∀ rr ∈ resp.answers, rr.rdlength = rr.data.length % 65536 := by
  simp only [handle_message] at h
  cases htr : traverseOption (answer_question db) m.questions with
  | none => rw [htr] at h; exact absurd h (by simp)
  | some answers =>
    rw [htr] at h
    simp only [Option.map_some', Option.some.injEq] at h
    subst h
    have hlen : answers.length = m.questions.length :=
      traverseOption_length (answer_question db) m.questions answers htr
    constructor
    · simp only [Message.to_bytes, Header.write, Flags.write, Flags.answer, encU16,
        List.flatMap_nil, List.append_nil, List.nil_append, List.cons_append,
        List.append_assoc]
      simp only [List.drop, List.take]
      have h1 : answers.length % 65536 = answers.length := Nat.mod_eq_of_lt (by omega)
      simp [h1]
    · intro rr hrr
      obtain ⟨q, _, hq'⟩ :=
        traverseOption_mem (answer_question db) m.questions answers htr rr hrr
      exact answer_question_rdlength db q rr hq'

/-- C5 witness: the amended statement at the one-question request `m9` over
the zone `db9`. -/
theorem c5_server_counts_match_witness :
    (((resp9.to_bytes.drop 4).take 8 =
      encU16 resp9.questions.length ++ encU16 resp9.answers.length ++
        encU16 resp9.authorities.length ++ encU16 resp9.additionals.length) ∧
    ∀ rr ∈ resp9.answers, rr.rdlength = rr.data.length % 65536) := by
  have h9 : handle_message db9 m9 = some resp9 := by decide
  exact c5_server_counts_match db9 m9 resp9 h9 (by decide)

/-- C6 counterexample: the round-trip claim fails on the syntactically valid
message `c6msg`, whose additional section holds an `OPT` record: the writer
emits the stored `qclass` bytes while the reader skips `qclass` for `OPT`,
so decoding the encoding yields `c6mangled` (ttl 512 instead of 33554432,
option bytes 0/0 instead of 3/9) with the bytes `[3, 9]` left unconsumed —
not the original message. -/
theorem c6_counterexample :
    validMessage c6msg ∧
    Message.from_bytes c6msg.to_bytes = .ok [3, 9] c6mangled ∧
    c6mangled ≠ c6msg := by decide

/-- C6 (amended): for every syntactically valid message (labels of 1–63
bytes of UTF-8 text, counts normalized to the section lengths, fields
within their wire widths) that contains no `OPT` record, decoding the
encoding returns exactly the message — in particular the reserved `z` bits
and all enum fields round-trip.  `OPT`-bearing messages are excluded: their
encoding mis-decodes because the stored `qclass` is written but not read
back. -/
theorem c6_roundtrip (m : Message) (hval : validMessage m) (hopt : noOptRecords m) :
    Message.from_bytes m.to_bytes = .ok [] m := by
  obtain ⟨h, qs, ans, aus, ads⟩ := m
  obtain ⟨id, flags, qd, an, ns, ar⟩ := h
  obtain ⟨hid, hz, hqd, han, hns, har, hq16, ha16, hau16, had16, hqv, hav, hauv, hadv⟩ := hval
  obtain ⟨hano, hauo, hado⟩ := hopt
  simp only at hid hz hqd han hns har hq16 ha16 hau16 had16 hqv hav hauv hadv hano hauo hado
  subst hqd han hns har
  simp only [Message.to_bytes, Message.from_bytes, List.append_assoc]
  rw [show ads.flatMap ResourceRecord.write
      = ads.flatMap ResourceRecord.write ++ ([] : List Nat) from (List.append_nil _).symm]
  rw [header_write_read ⟨id, flags, qs.length, ans.length, aus.length, ads.length⟩
    hid hz hq16 ha16 hau16 had16]
  simp only [DResult.bind]
  rw [readCount_enc _ Question.write qs
    (fun q hq r => question_write_read q (hqv q hq) r _)]
  simp only [DResult.bind]
  rw [readCount_enc _ ResourceRecord.write ans
    (fun rr hrr r => rr_write_read rr (hav rr hrr) (hano rr hrr) r _)]
  simp only [DResult.bind]
  rw [readCount_enc _ ResourceRecord.write aus
    (fun rr hrr r => rr_write_read rr (hauv rr hrr) (hauo rr hrr) r _)]
  simp only [DResult.bind]
  rw [readCount_enc _ ResourceRecord.write ads
    (fun rr hrr r => rr_write_read rr (hadv rr hrr) (hado rr hrr) r _)]

/-- C6 witness: the amended round-trip at the concrete valid `OPT`-free
message `c6ok`. -/
theorem c6_roundtrip_witness :
    validMessage c6ok ∧ noOptRecords c6ok ∧
    Message.from_bytes c6ok.to_bytes = .ok [] c6ok :=
  ⟨by decide, by decide, c6_roundtrip c6ok (by decide) (by decide)⟩

/-- C7: a CNAME zone record is claimed to serialize to the wire encoding of
its target name; the `Db`'s record type (in `db.rs`, the one the server
answers from) instead serializes the display string: answering the CNAME
query for `example.com` yields rdata equal to the ASCII bytes of
`www.example.com`, not the length-prefixed wire bytes `wwwWire` (which the
unused `record.rs` variant would produce). -/
theorem c7_cname_rdata_display_bytes :
    answer_question db7 ⟨Name.new exampleCom, .CNAME, .IN⟩ =
      some ⟨Name.new exampleCom, .CNAME, .IN, 1, 15, wwwExampleCom, none, none⟩ ∧
    record.Record.to_bytes (record.Record.CNAME (Name.new wwwExampleCom)) = wwwWire ∧
    wwwExampleCom ≠ wwwWire := by decide

/-- C8: wildcard matching is single-level: with `*.local.dev → A(127.0.0.1)`
inserted, `denis.local.dev` matches, `local.dev` does not (a component must
be present), and `a.b.local.dev` does not (one wildcard label consumes
exactly one component). -/
theorem c8_wildcard_scope :
    db8.lookup (Name.new denisLocalDev) QType.A = some (Record.A [127, 0, 0, 1]) ∧
    db8.lookup (Name.new localDev) QType.A = none ∧
    db8.lookup (Name.new abLocalDev) QType.A = none := by decide

/-- C9: for every request whose questions all resolve locally (and whose
question count fits in a `u16`, as any decoded request's does), the response
copies the request id, sets `qr`/`aa` and clears `tc`/`rd`/`ra` with rcode
`NoError`, preserves the request opcode, and stores counts matching its
sections: `ancount` the number of answers, the rest zero. -/
theorem c9_response_header (db : Db) (m resp : Message)
    (h : handle_message db m = some resp) (hq : m.questions.length < 65536) :
    resp.header.id = m.header.id ∧
    resp.header.flags.qr = true ∧ resp.header.flags.aa = true ∧
    resp.header.flags.tc = false ∧ resp.header.flags.rd = false ∧
    resp.header.flags.ra = false ∧ resp.header.flags.rcode = RCode.NoError ∧
    resp.header.flags.opcode = m.header.flags.opcode ∧
    resp.header.ancount = resp.answers.length ∧
    resp.header.qdcount = 0 ∧ resp.header.nscount = 0 ∧ resp.header.arcount = 0 ∧
    resp.questions = [] ∧ resp.authorities = [] ∧ resp.additionals = [] := by
  simp only [handle_message] at h
  cases htr : traverseOption (answer_question db) m.questions with
  | none => rw [htr] at h; exact absurd h (by simp)
  | some answers =>
    rw [htr] at h
    simp only [Option.map_some', Option.some.injEq] at h
    subst h
    have hlen : answers.length = m.questions.length :=
      traverseOption_length (answer_question db) m.questions answers htr
    refine ⟨rfl, rfl, rfl, rfl, rfl, rfl, rfl, rfl, ?_, rfl, rfl, rfl, rfl, rfl, rfl⟩
    simpa using Nat.mod_eq_of_lt (show answers.length < 65536 by omega)

/-- C9 witness: the response properties at the concrete request `m9` over
the zone `db9`. -/
theorem c9_response_header_witness :
    resp9.header.id = m9.header.id ∧
    resp9.header.flags.qr = true ∧ resp9.header.flags.aa = true ∧
    resp9.header.flags.tc = false ∧ resp9.header.flags.rd = false ∧
    resp9.header.flags.ra = false ∧ resp9.header.flags.rcode = RCode.NoError ∧
    resp9.header.flags.opcode = m9.header.flags.opcode ∧
    resp9.header.ancount = resp9.answers.length ∧
    resp9.header.qdcount = 0 ∧ resp9.header.nscount = 0 ∧ resp9.header.arcount = 0 ∧
    resp9.questions = [] ∧ resp9.authorities = [] ∧ resp9.additionals = [] :=
  c9_response_header db9 m9 resp9 (by decide) (by decide)

/-- C10: trie lookup never backtracks from an exact edge to the wildcard
edge: when an exact child exists for the next component the lookup commits
to it; consequently in `db10` (a wildcard entry plus a valueless exact
`denis` path created by inserting `x.denis.local.dev`), the wildcard-matched
name `denis.local.dev` still returns none. -/
theorem c10_no_backtracking {V : Type} (n : Node V) (k : Key) (rest : List Key)
    (child : Node V) (h : n.find k = some child) :
    n.lookup (k :: rest) = child.lookup rest ∧
    db10.lookup (Name.new denisLocalDev) QType.A = none := by
  constructor
  · simp only [Node.lookup, h]
  · decide

/-- C10 witness: the no-backtracking equation at a concrete one-edge node,
together with the concrete miss in `db10`. -/
theorem c10_no_backtracking_witness :
    (Node.mk [(Key.Label [100], Node.mk ([] : List (Key × Node Nat)) (some 1))] none).lookup
        [Key.Label [100]] =
      (Node.mk ([] : List (Key × Node Nat)) (some 1)).lookup [] ∧
    db10.lookup (Name.new denisLocalDev) QType.A = none :=
  c10_no_backtracking _ (Key.Label [100]) [] _ rfl

end Denis
